import Mathlib

/-!
# PlantLab backend core, shallowly embedded

This file embeds the core of `src/backend/src/plantlab/app.py` in Lean:
the in-memory sample store (`STORE : dict[str, deque[Sample]]`), store
reconciliation (`ensure_store_keys`), the real-data gate
(`have_real_data`), ingestion (`ingest`), the latest read (`latest`),
the minute-bucket history reconstruction (`minute_bucket_history`), the
simulated signal generator call sites, and the date-range history mode.

Modelling conventions:
* Python `float` percent values are modelled as `ℚ`; `round(x, 1)` is
  modelled as rounding to the nearest tenth (half-up; no claim depends
  on the tie direction of Python's banker rounding).
* `math.sin` and `random.uniform` are external effects; each simulated
  call site takes the sine value and the jitter draw as parameters.
* Unix timestamps are `Int` (seconds); `time.time()` is a parameter `now`.
* The dict `STORE` is an association list with unique keys in practice;
  lookups take the first matching key, as a Python dict would present.
-/

/-- `Sample` dataclass: server timestamp, percent reading, optional raw ADC. -/
structure Sample where
  ts : Int
  percent : ℚ
  adc : Option Int := none
deriving DecidableEq, Repr

abbrev Buffer := List Sample

/-- `STORE : dict[str, deque[Sample]]`, as an association list (insertion order). -/
abbrev Store := List (String × Buffer)

/-- `MAX_POINTS_PER_SENSOR = 8000` (per-sensor deque capacity). -/
def MAX_POINTS_PER_SENSOR : ℕ := 8000

/-- `OFFLINE_AFTER_S = 180` (staleness threshold in seconds). -/
def OFFLINE_AFTER_S : Int := 180

/-- Dict lookup `STORE.get(sid)`: first pair whose key matches. -/
def lookupBuf : Store → String → Option Buffer
  | [], _ => none
  | (k, v) :: rest, sid => if k = sid then some v else lookupBuf rest sid

/-- Dict key list `STORE.keys()`. -/
def storeKeys (store : Store) : List String := store.map Prod.fst

/-- `ensure_store_keys()`: add an empty deque for each configured id not
yet tracked, then delete every tracked key that is no longer configured. -/
def ensureStoreKeys (ids : List String) (store : Store) : Store :=
  (store ++ (ids.filter (fun i => (lookupBuf store i).isNone)).map
      (fun i => (i, ([] : Buffer)))).filter (fun p => decide (p.1 ∈ ids))

/-- `any(len(q) > 0 for q in STORE.values())` (the body of `have_real_data`). -/
def hasAnyData (store : Store) : Bool := store.any (fun p => !p.2.isEmpty)

/-- `have_real_data()`: reconcile, then test for any non-empty deque. -/
def haveRealData (ids : List String) (store : Store) : Bool :=
  hasAnyData (ensureStoreKeys ids store)

/-- `deque(maxlen=MAX_POINTS_PER_SENSOR).append`: drop the oldest sample
once the buffer is at capacity. -/
def dequeAppend (buf : Buffer) (s : Sample) : Buffer :=
  if buf.length < MAX_POINTS_PER_SENSOR then buf ++ [s] else buf.tail ++ [s]

/-- Dict value assignment `STORE[sid] = buf` for an existing key. -/
def setBuf (store : Store) (sid : String) (buf : Buffer) : Store :=
  store.map (fun p => if p.1 = sid then (p.1, buf) else p)

/-- `payload.sensor_id.strip().upper()`, over the character list (Python's
`str.strip`/`str.upper` restricted to the ASCII ids this system uses). -/
def trimChars (l : List Char) : List Char :=
  ((l.dropWhile Char.isWhitespace).reverse.dropWhile Char.isWhitespace).reverse

def normalizeId (s : String) : String :=
  ⟨(trimChars s.data).map Char.toUpper⟩

/-- Order-preserving insertion into a `≤`-sorted list of strings. -/
def insertSorted (x : String) : List String → List String
  | [] => [x]
  | y :: rest => if x ≤ y then x :: y :: rest else y :: insertSorted x rest

/-- Insertion sort on strings (structural, so it evaluates in the kernel). -/
def sortStrings : List String → List String
  | [] => []
  | x :: rest => insertSorted x (sortStrings rest)

/-- `sorted(STORE.keys())`. -/
def sortedKeys (store : Store) : List String := sortStrings (storeKeys store)

/-- Result of `POST /api/ingest`: success `{ok, sensor_id, stored_ts}` or the
400 payload `{error: "unknown sensor_id", sensor_id, known}`. -/
inductive IngestResult where
  | ok (sensor_id : String) (stored_ts : Int)
  | unknownSensor (sensor_id : String) (known : List String)
deriving DecidableEq, Repr

/-- `ingest(payload)`: reconcile, normalize the id, reject unknown ids with
the sorted known-key list, otherwise stamp with server time and append. -/
def ingest (ids : List String) (store : Store) (sensorId : String)
    (percent : ℚ) (adc : Option Int) (now : Int) : IngestResult × Store :=
  let store' := ensureStoreKeys ids store
  let sid := normalizeId sensorId
  match lookupBuf store' sid with
  | none => (.unknownSensor sid (sortedKeys store'), store')
  | some buf =>
      (.ok sid now, setBuf store' sid (dequeAppend buf ⟨now, percent, adc⟩))

/-- A configured sensor `{id, label}` as supplied by the config provider. -/
structure SensorCfg where
  id : String
  label : String
deriving DecidableEq, Repr

/-- One element of the `values` array of `GET /api/latest`. -/
structure LatestEntry where
  sensor_id : String
  label : String
  percent : Option ℚ
  last_seen : Option Int
  status : String
  age_s : Option Int
deriving DecidableEq, Repr

/-- Python `round(x, 1)`: round to the nearest tenth (half-up at ties). -/
def round1 (q : ℚ) : ℚ := (⌊10 * q + 1 / 2⌋ : ℚ) / 10

/-- `clamp(n, lo, hi) = max(lo, min(hi, n))`. -/
def clamp (n lo hi : Int) : Int := max lo (min hi n)

/-- The per-sensor body of the real-data branch of `latest()`: compute the
age of the last sample, classify online/offline, and build the entry. -/
def latestRealEntry (now : Int) (cfg : SensorCfg) (buf : Buffer) : LatestEntry :=
  match buf.getLast? with
  | some last =>
      let age := now - last.ts
      let online := age ≤ OFFLINE_AFTER_S
      { sensor_id := cfg.id, label := cfg.label
        percent := if online then some (round1 last.percent) else none
        last_seen := some last.ts
        status := if online then "online" else "offline"
        age_s := some age }
  | none =>
      { sensor_id := cfg.id, label := cfg.label, percent := none
        last_seen := none, status := "offline", age_s := none }

/-- The real-data branch of `latest()` over the (already reconciled) store. -/
def latestReal (sensors : List SensorCfg) (store : Store) (now : Int) :
    List LatestEntry :=
  sensors.map (fun s => latestRealEntry now s ((lookupBuf store s.id).getD []))

/-- Shared tail of every simulated-value computation:
`round(max(0, min(100, x)), 1)`. -/
def simClampRound (x : ℚ) : ℚ := round1 (max 0 (min 100 x))

/-- Simulated value at the `latest()` call site: `base = 55 + 18*sin(t/60 + idx)`
plus jitter `uniform(-3, 3)`, clamped and rounded. `sinVal` is the value of
`sin(t/60 + idx)` and `noise` the jitter draw. -/
def simLatestValue (sinVal noise : ℚ) : ℚ := simClampRound (55 + 18 * sinVal + noise)

/-- The simulation branch of `latest()`: every sensor online with age 0. -/
def latestSim (sensors : List SensorCfg) (now : Int) (sinV noiseV : ℕ → ℚ) :
    List LatestEntry :=
  sensors.enum.map (fun p =>
    { sensor_id := p.2.id, label := p.2.label
      percent := some (simLatestValue (sinV p.1) (noiseV p.1))
      last_seen := some now, status := "online", age_s := some 0 })

/-- `GET /api/latest`: reconcile, then route through the real-data gate.
Returns the `values` array and the store as left by reconciliation. -/
def latest (sensors : List SensorCfg) (store : Store) (now : Int)
    (sinV noiseV : ℕ → ℚ) : List LatestEntry × Store :=
  let store' := ensureStoreKeys (sensors.map SensorCfg.id) store
  if hasAnyData store' then (latestReal sensors store' now, store')
  else (latestSim sensors now sinV noiseV, store')

/-- One `series` row: bucket timestamp plus one value column per sensor id. -/
structure HistoryRow where
  ts : Int
  values : List (String × Option ℚ)
deriving DecidableEq, Repr

/-- The inner loop of `minute_bucket_history`: scan the buffer newest to
oldest and take the first sample with `smp.ts <= ts`, rounded. -/
def bucketValue (samples : Buffer) (t : Int) : Option ℚ :=
  (samples.reverse.find? (fun smp => decide (smp.ts ≤ t))).map
    (fun smp => round1 smp.percent)

/-- `minute_bucket_history(minutes)`: clamp the window to `[10, 1440]`
minutes, then emit one row per 60-second boundary from `now - minutes*60`
to `now` inclusive. Returns the rows and the reconciled store. -/
def minuteBucketHistory (sensors : List SensorCfg) (store : Store)
    (minutes : Int) (now : Int) : List HistoryRow × Store :=
  let store' := ensureStoreKeys (sensors.map SensorCfg.id) store
  let m := clamp minutes 10 1440
  let startTs := now - m * 60
  ((List.range (m.toNat + 1)).map (fun (i : ℕ) =>
    { ts := startTs + 60 * (i : Int)
      values := sensors.map (fun s =>
        (s.id, bucketValue ((lookupBuf store' s.id).getD []) (startTs + 60 * (i : Int)))) }),
   store')

/-- Simulated value at the windowed-history call site: base
`55 + 18*sin(ts/1800 + idx)`, drift `-0.02*m` for a row `m` minutes before
`now`, jitter `uniform(-2, 2)`. -/
def histSimValue (sinVal noise : ℚ) (m : Int) : ℚ :=
  simClampRound (55 + 18 * sinVal + (-0.02 : ℚ) * (m : ℚ) + noise)

/-- The simulation branch of windowed `GET /api/history`:
`for m in range(minutes, -1, -1)` emit a row at `now - m*60`. -/
def historySim (sensors : List SensorCfg) (minutes : Int) (now : Int)
    (sinV : Int → ℕ → ℚ) (noiseV : ℕ → ℕ → ℚ) : List HistoryRow :=
  (List.range (minutes.toNat + 1)).map (fun (j : ℕ) =>
    let m : Int := minutes - (j : Int)
    let t := now - m * 60
    { ts := t
      values := sensors.enum.map (fun p =>
        (p.2.id, some (histSimValue (sinV t p.1) (noiseV j p.1) m))) })

/-- Windowed `GET /api/history` (no `start`/`end` query): clamp, then route
through the real-data gate. -/
def historyEndpoint (sensors : List SensorCfg) (store : Store)
    (minutes : Int) (now : Int) (sinV : Int → ℕ → ℚ) (noiseV : ℕ → ℕ → ℚ) :
    List HistoryRow × Store :=
  let store' := ensureStoreKeys (sensors.map SensorCfg.id) store
  let m := clamp minutes 10 1440
  if hasAnyData store' then minuteBucketHistory sensors store' m now
  else (historySim sensors m now sinV noiseV, store')

/-- A calendar date as produced by `parse_iso_date` (UTC midnight). -/
structure CivilDate where
  year : Int
  month : ℕ
  day : ℕ
deriving DecidableEq, Repr

/-- `strptime`'s `%m` directive (regex `1[0-2]|0[1-9]|[1-9]`), including its
single-digit fallback when two digits do not form a valid month. -/
def parseMonthChars : List Char → Option (ℕ × List Char)
  | '1' :: c :: rest =>
      if c = '0' ∨ c = '1' ∨ c = '2' then some (10 + (c.toNat - 48), rest)
      else some (1, c :: rest)
  | '0' :: c :: rest =>
      if '1' ≤ c ∧ c ≤ '9' then some (c.toNat - 48, rest) else none
  | c :: rest =>
      if '1' ≤ c ∧ c ≤ '9' then some (c.toNat - 48, rest) else none
  | [] => none

/-- `strptime`'s `%d` directive (regex `3[01]|[12]\d|0[1-9]|[1-9]`). -/
def parseDayChars : List Char → Option (ℕ × List Char)
  | '3' :: c :: rest =>
      if c = '0' ∨ c = '1' then some (30 + (c.toNat - 48), rest)
      else some (3, c :: rest)
  | '1' :: c :: rest =>
      if c.isDigit then some (10 + (c.toNat - 48), rest) else some (1, c :: rest)
  | '2' :: c :: rest =>
      if c.isDigit then some (20 + (c.toNat - 48), rest) else some (2, c :: rest)
  | '0' :: c :: rest =>
      if '1' ≤ c ∧ c ≤ '9' then some (c.toNat - 48, rest) else none
  | c :: rest =>
      if '1' ≤ c ∧ c ≤ '9' then some (c.toNat - 48, rest) else none
  | [] => none

/-- Gregorian leap-year rule (as used by `datetime`). -/
def isLeap (y : Int) : Bool :=
  y % 4 = 0 ∧ (y % 100 ≠ 0 ∨ y % 400 = 0)

def daysInMonth (y : Int) (m : ℕ) : ℕ :=
  match m with
  | 1 => 31 | 2 => if isLeap y then 29 else 28 | 3 => 31 | 4 => 30
  | 5 => 31 | 6 => 30 | 7 => 31 | 8 => 31 | 9 => 30 | 10 => 31
  | 11 => 30 | 12 => 31 | _ => 0

def digitVal? (c : Char) : Option ℕ :=
  if c.isDigit then some (c.toNat - 48) else none

/-- `parse_iso_date(s) = datetime.strptime(s, "%Y-%m-%d")` at UTC:
exactly four year digits, `%m`/`%d` as above, no trailing characters, and
`datetime`'s own validation (year ≥ 1, day within the month). -/
def parseIsoDate (s : String) : Option CivilDate :=
  match s.data with
  | y1 :: y2 :: y3 :: y4 :: '-' :: rest =>
    match digitVal? y1, digitVal? y2, digitVal? y3, digitVal? y4 with
    | some a, some b, some c, some d =>
      let y : ℕ := 1000 * a + 100 * b + 10 * c + d
      match parseMonthChars rest with
      | some (m, rest2) =>
        match rest2 with
        | '-' :: rest3 =>
          match parseDayChars rest3 with
          | some (day, rest4) =>
            if rest4 = [] ∧ 1 ≤ y ∧ day ≤ daysInMonth (y : Int) m then
              some ⟨(y : Int), m, day⟩
            else none
          | none => none
        | _ => none
      | none => none
    | _, _, _, _ => none
  | _ => none

/-- Days since 1970-01-01 of a civil date (proleptic Gregorian; the
`days_from_civil` algorithm with floor division). `d.timestamp()` of a UTC
midnight is exactly `86400 *` this number. -/
def daysFromCivil (cd : CivilDate) : Int :=
  let y := if cd.month ≤ 2 then cd.year - 1 else cd.year
  let era := y.fdiv 400
  let yoe := y - era * 400
  let mp : Int := if 2 < cd.month then (cd.month : Int) - 3 else (cd.month : Int) + 9
  let doy := (153 * mp + 2).fdiv 5 + (cd.day : Int) - 1
  let doe := yoe * 365 + yoe.fdiv 4 - yoe.fdiv 100 + doy
  era * 146097 + doe - 719468

/-- `int(parse_iso_date(s).timestamp())`: UTC midnight of the date. -/
def dateTimestamp (cd : CivilDate) : Int := 86400 * daysFromCivil cd

/-- Simulated value at the date-range call site: base
`55 + 18*sin(ts/1800 + idx)`, drift `-0.00002*(ts - start_ts)`, jitter
`uniform(-2, 2)`. -/
def dateRangeValue (sinVal noise drift : ℚ) : ℚ :=
  simClampRound (55 + 18 * sinVal + drift + noise)

/-- The row loop of the date-range branch: `ts` from `start_ts` to `end_ts`
inclusive, stepping 60 seconds. -/
def dateRangeRows (sensors : List SensorCfg) (startTs endTs : Int)
    (sinV : Int → ℕ → ℚ) (noiseV : ℕ → ℕ → ℚ) : List HistoryRow :=
  (List.range (((endTs - startTs) / 60).toNat + 1)).map (fun (j : ℕ) =>
    let t := startTs + 60 * (j : Int)
    { ts := t
      values := sensors.enum.map (fun p =>
        (p.2.id, some (dateRangeValue (sinV t p.1) (noiseV j p.1)
          ((-0.00002 : ℚ) * ((t - startTs : Int) : ℚ))))) })

/-- Outcome of the date-range branch of `GET /api/history`. -/
inductive DateRangeResult where
  | invalidDateFormat
  | invalidRange
  | rangeTooLarge
  | ok (rows : List HistoryRow)
deriving DecidableEq, Repr

/-- The `start`/`end` branch of `GET /api/history`: parse both dates
(either failure is the 400 "Invalid date format" response), expand to
`[start 00:00:00, end 23:59:59]`, reject reversed or over-31-day ranges,
otherwise emit simulated rows. -/
def historyDateRange (sensors : List SensorCfg) (startS endS : String)
    (sinV : Int → ℕ → ℚ) (noiseV : ℕ → ℕ → ℚ) : DateRangeResult :=
  match parseIsoDate startS, parseIsoDate endS with
  | some sd, some ed =>
      let startTs := dateTimestamp sd
      let endTs := dateTimestamp ed + 24 * 3600 - 1
      if endTs < startTs then .invalidRange
      else if 31 * 24 * 3600 < endTs - startTs then .rangeTooLarge
      else .ok (dateRangeRows sensors startTs endTs sinV noiseV)
  | _, _ => .invalidDateFormat

/-- A store-touching request, as far as the store's state is concerned:
an ingest, or any operation that reconciles the store against the current
configured id set (`ensure_store_keys` is called by every read endpoint,
so reads are `reconcile` here). -/
inductive Op where
  | opIngest (ids : List String) (sensorId : String) (percent : ℚ)
      (adc : Option Int) (now : Int)
  | opReconcile (ids : List String)
deriving Repr

/-- The configured id set an operation reconciles against. -/
def opIds : Op → List String
  | .opIngest ids _ _ _ _ => ids
  | .opReconcile ids => ids

/-- State effect of one operation on the store. -/
def applyOp (store : Store) : Op → Store
  | .opIngest ids sid p adc now => (ingest ids store sid p adc now).2
  | .opReconcile ids => ensureStoreKeys ids store

/-- State effect of a request sequence. -/
def applyOps (store : Store) (ops : List Op) : Store := ops.foldl applyOp store

/-- Step guard for the amended permanence property: the operation's
configured id set has no duplicates (it is a Python `set`) and keeps every
sensor that currently holds data. -/
def stepKeepsData (store : Store) (op : Op) : Bool :=
  decide (opIds op).Nodup &&
    store.all (fun p => p.2.isEmpty || decide (p.1 ∈ opIds op))

/-- A whole request sequence keeps every data-holding sensor configured at
each step. -/
def keepsData (store : Store) : List Op → Bool
  | [] => true
  | op :: rest => stepKeepsData store op && keepsData (applyOp store op) rest

/-- Spec-side description of the bucket value ("last observation carried
forward"): the most recent stored sample with `timestamp ≤ t` — the first
match scanning the buffer newest to oldest, i.e. the last, in insertion
order, among samples with `timestamp ≤ t` — rounded to one decimal, or
absent when there is no such sample. -/
def locfValue (samples : Buffer) (t : Int) : Option ℚ :=
  ((samples.filter (fun smp => decide (smp.ts ≤ t))).getLast?).map
    (fun smp => round1 smp.percent)

/-- A rational is "rounded to one decimal place": an integer number of
tenths. -/
def isTenth (q : ℚ) : Prop := ∃ n : ℤ, q = (n : ℚ) / 10

/-- All buffers within capacity (store invariant). -/
def boundedStore (store : Store) : Prop :=
  ∀ sid buf, lookupBuf store sid = some buf → buf.length ≤ MAX_POINTS_PER_SENSOR

example : normalizeId " s1 " = "S1" := by decide
example : parseIsoDate "2024-01-01" = some ⟨2024, 1, 1⟩ := by decide
example : parseIsoDate "2024-02-30" = none := by decide
example : parseIsoDate "2024-13-01" = none := by decide
example : parseIsoDate "0000-01-01" = none := by decide
example : parseIsoDate "2024-1-5" = some ⟨2024, 1, 5⟩ := by decide
example : parseIsoDate "2024-01-011" = none := by decide
example : daysFromCivil ⟨1970, 1, 1⟩ = 0 := by decide
example : daysFromCivil ⟨2024, 1, 1⟩ = 19723 := by decide
example : daysFromCivil ⟨1969, 12, 31⟩ = -1 := by decide

/-! ## Helper lemmas: sorting, rounding, bucket scan -/

theorem mem_insertSorted (x a : String) (l : List String) :
    a ∈ insertSorted x l ↔ a = x ∨ a ∈ l := by
  induction l with
  | nil => simp [insertSorted]
  | cons y rest ih =>
      by_cases h : x ≤ y
      · simp [insertSorted, h]
      · simp [insertSorted, h, ih]
        tauto

theorem mem_sortStrings (a : String) (l : List String) :
    a ∈ sortStrings l ↔ a ∈ l := by
  induction l with
  | nil => simp [sortStrings]
  | cons x rest ih => simp [sortStrings, mem_insertSorted, ih]

theorem round1_intCast (n : ℤ) : round1 (n : ℚ) = (n : ℚ) := by
  unfold round1
  have h : (10 : ℚ) * (n : ℚ) + 1 / 2 = ((10 * n : ℤ) : ℚ) + 1 / 2 := by
    push_cast; ring
  rw [h, Int.floor_int_add]
  have : ⌊(1 / 2 : ℚ)⌋ = 0 := by
    rw [Int.floor_eq_zero_iff]
    constructor <;> norm_num
  rw [this]
  push_cast
  ring

theorem round1_bounds {q : ℚ} (h0 : 0 ≤ q) (h100 : q ≤ 100) :
    0 ≤ round1 q ∧ round1 q ≤ 100 := by
  unfold round1
  have hfl : (0 : ℤ) ≤ ⌊10 * q + 1 / 2⌋ := by
    rw [Int.floor_nonneg]
    nlinarith
  have hfu : ⌊10 * q + 1 / 2⌋ ≤ 1000 := by
    have h1 : (10 : ℚ) * q + 1 / 2 < 1001 := by nlinarith
    have h2 : (⌊10 * q + 1 / 2⌋ : ℚ) ≤ 10 * q + 1 / 2 := Int.floor_le _
    have h3 : (⌊10 * q + 1 / 2⌋ : ℚ) < 1001 := lt_of_le_of_lt h2 h1
    exact_mod_cast Int.lt_add_one_iff.mp (by exact_mod_cast h3)
  constructor
  · positivity
  · rw [div_le_iff₀ (by norm_num : (0:ℚ) < 10)]
    calc (⌊10 * q + 1 / 2⌋ : ℚ) ≤ 1000 := by exact_mod_cast hfu
    _ = 100 * 10 := by norm_num

theorem isTenth_round1 (q : ℚ) : isTenth (round1 q) :=
  ⟨⌊10 * q + 1 / 2⌋, rfl⟩

/-- The shared clamp-and-round tail of the simulated generator always lands
in `[0, 100]` on a tenth. -/
theorem simClampRound_ok (x : ℚ) :
    0 ≤ simClampRound x ∧ simClampRound x ≤ 100 ∧ isTenth (simClampRound x) := by
  unfold simClampRound
  have h0 : (0 : ℚ) ≤ max 0 (min 100 x) := le_max_left 0 _
  have h100 : max 0 (min 100 x) ≤ 100 := by
    rcases le_total 0 (min 100 x) with h | h
    · rw [max_eq_right h]
      exact le_trans (min_le_left _ _) (by norm_num)
    · rw [max_eq_left h]; norm_num
  obtain ⟨hl, hu⟩ := round1_bounds h0 h100
  exact ⟨hl, hu, isTenth_round1 _⟩

theorem find?_eq_head_filter {α : Type} (p : α → Bool) (l : List α) :
    l.find? p = (l.filter p).head? := by
  induction l with
  | nil => simp
  | cons a rest ih =>
      rw [List.find?_cons, List.filter_cons]
      cases hpa : p a
      · simpa using ih
      · simp

/-- The newest-to-oldest scan of the code equals the spec's description:
the last sample, in insertion order, with `timestamp ≤ t`. -/
theorem bucketValue_eq_locfValue (samples : Buffer) (t : Int) :
    bucketValue samples t = locfValue samples t := by
  unfold bucketValue locfValue
  rw [find?_eq_head_filter, List.filter_reverse, List.head?_reverse]

theorem length_dequeAppend_le {buf : Buffer} (s : Sample)
    (h : buf.length ≤ MAX_POINTS_PER_SENSOR) :
    (dequeAppend buf s).length ≤ MAX_POINTS_PER_SENSOR := by
  unfold dequeAppend
  by_cases hlt : buf.length < MAX_POINTS_PER_SENSOR
  · rw [if_pos hlt]
    simpa using hlt
  · rw [if_neg hlt]
    cases buf with
    | nil => simp at hlt; simp [MAX_POINTS_PER_SENSOR] at hlt
    | cons a rest =>
        simp only [List.tail_cons, List.length_append, List.length_cons,
          List.length_nil] at h ⊢
        omega

/-! ## Helper lemmas about the store -/

theorem lookupBuf_append (l₁ l₂ : Store) (sid : String) :
    lookupBuf (l₁ ++ l₂) sid =
      match lookupBuf l₁ sid with
      | some b => some b
      | none => lookupBuf l₂ sid := by
  induction l₁ with
  | nil => simp [lookupBuf]
  | cons p rest ih =>
      obtain ⟨k, v⟩ := p
      by_cases h : k = sid <;> simp [lookupBuf, h, ih]

theorem lookupBuf_filter_keys (ids : List String) (store : Store) (sid : String) :
    lookupBuf (store.filter (fun p => decide (p.1 ∈ ids))) sid =
      if sid ∈ ids then lookupBuf store sid else none := by
  induction store with
  | nil => simp [lookupBuf]
  | cons p rest ih =>
      obtain ⟨k, v⟩ := p
      by_cases hk : k ∈ ids
      · by_cases h : k = sid
        · subst h
          simp [List.filter_cons, hk, lookupBuf]
        · simp [List.filter_cons, hk, lookupBuf, h, ih]
      · by_cases h : k = sid
        · subst h
          simp [List.filter_cons, hk, lookupBuf, ih]
        · simp [List.filter_cons, hk, lookupBuf, h, ih]

theorem lookupBuf_map_const (L : List String) (c : Buffer) (sid : String) :
    lookupBuf (L.map (fun i => (i, c))) sid =
      if sid ∈ L then some c else none := by
  induction L with
  | nil => simp [lookupBuf]
  | cons k rest ih =>
      by_cases h : k = sid
      · subst h; simp [lookupBuf]
      · simp [lookupBuf, h, ih, Ne.symm h]

/-- The reconciliation contract in one equation: a configured id keeps its
buffer (or gets an empty one), an unconfigured id has no buffer. -/
theorem lookupBuf_ensure (ids : List String) (store : Store) (sid : String) :
    lookupBuf (ensureStoreKeys ids store) sid =
      if sid ∈ ids then some ((lookupBuf store sid).getD []) else none := by
  unfold ensureStoreKeys
  rw [lookupBuf_filter_keys]
  by_cases hm : sid ∈ ids
  · rw [if_pos hm, if_pos hm, lookupBuf_append]
    cases hl : lookupBuf store sid with
    | some b => simp
    | none =>
        simp only [Option.getD_none]
        rw [lookupBuf_map_const]
        have : sid ∈ ids.filter (fun i => (lookupBuf store i).isNone) := by
          simp [List.mem_filter, hm, hl]
        simp [this]
  · simp [hm]

theorem mem_storeKeys_iff (store : Store) (sid : String) :
    sid ∈ storeKeys store ↔ (lookupBuf store sid).isSome := by
  induction store with
  | nil => simp [storeKeys, lookupBuf]
  | cons p rest ih =>
      obtain ⟨k, v⟩ := p
      by_cases h : k = sid
      · subst h; simp [storeKeys, lookupBuf]
      · simp [storeKeys, lookupBuf, h, Ne.symm h] at ih ⊢
        exact ih

theorem hasAnyData_of_lookup {store : Store} {sid : String} {buf : Buffer}
    (h : lookupBuf store sid = some buf) (hne : buf ≠ []) :
    hasAnyData store = true := by
  induction store with
  | nil => simp [lookupBuf] at h
  | cons p rest ih =>
      obtain ⟨k, v⟩ := p
      by_cases hk : k = sid
      · subst hk
        simp [lookupBuf] at h
        subst h
        simp [hasAnyData, List.any_cons, List.isEmpty_iff, hne]
      · simp [lookupBuf, hk] at h
        have := ih h
        simp [hasAnyData, List.any_cons] at this ⊢
        exact Or.inr this

theorem hasAnyData_elim {store : Store} (h : hasAnyData store = true) :
    ∃ p ∈ store, p.2 ≠ [] := by
  simp only [hasAnyData, List.any_eq_true] at h
  obtain ⟨p, hp, hne⟩ := h
  exact ⟨p, hp, by simpa [List.isEmpty_iff] using hne⟩

theorem lookupBuf_cons (a : String) (b : Buffer) (rest : Store) (k : String) :
    lookupBuf ((a, b) :: rest) k = if a = k then some b else lookupBuf rest k :=
  rfl

theorem setBuf_cons (a : String) (b : Buffer) (rest : Store) (sid : String)
    (buf : Buffer) :
    setBuf ((a, b) :: rest) sid buf =
      (if a = sid then (a, buf) else (a, b)) :: setBuf rest sid buf :=
  rfl

theorem storeKeys_cons (p : String × Buffer) (rest : Store) :
    storeKeys (p :: rest) = p.1 :: storeKeys rest :=
  rfl

theorem lookup_of_mem_nodup {store : Store} {sid : String} {buf : Buffer}
    (hnd : (storeKeys store).Nodup) (hmem : (sid, buf) ∈ store) :
    lookupBuf store sid = some buf := by
  induction store with
  | nil => simp at hmem
  | cons p rest ih =>
      obtain ⟨k, v⟩ := p
      rw [storeKeys_cons, List.nodup_cons] at hnd
      rcases List.mem_cons.mp hmem with h | h
      · have h1 : sid = k := congrArg Prod.fst h
        have h2 : buf = v := congrArg Prod.snd h
        subst h1
        simp [lookupBuf_cons, h2]
      · have hk : k ≠ sid := by
          intro he
          subst he
          exact hnd.1 (by
            simpa [storeKeys] using List.mem_map_of_mem Prod.fst h)
        rw [lookupBuf_cons, if_neg hk]
        exact ih hnd.2 h

theorem lookupBuf_setBuf (store : Store) (sid : String) (buf : Buffer)
    (k : String) :
    lookupBuf (setBuf store sid buf) k =
      if k = sid then (lookupBuf store k).map (fun _ => buf)
      else lookupBuf store k := by
  induction store with
  | nil => simp [setBuf, lookupBuf]
  | cons p rest ih =>
      obtain ⟨a, b⟩ := p
      by_cases h1 : a = sid
      · by_cases h2 : a = k
        · subst h1; subst h2
          simp [setBuf_cons, lookupBuf_cons]
        · subst h1
          simp [setBuf_cons, lookupBuf_cons, h2, ih]
      · by_cases h2 : a = k
        · subst h2
          simp [setBuf_cons, lookupBuf_cons, h1, ih]
        · simp [setBuf_cons, lookupBuf_cons, h1, h2, ih]

theorem storeKeys_setBuf (store : Store) (sid : String) (buf : Buffer) :
    storeKeys (setBuf store sid buf) = storeKeys store := by
  induction store with
  | nil => rfl
  | cons p rest ih =>
      obtain ⟨a, b⟩ := p
      by_cases h : a = sid <;>
        simp [setBuf_cons, storeKeys_cons, h, ih]

theorem storeKeys_ensure_nodup {ids : List String} {store : Store}
    (hids : ids.Nodup) (hst : (storeKeys store).Nodup) :
    (storeKeys (ensureStoreKeys ids store)).Nodup := by
  unfold ensureStoreKeys
  have hsub : (storeKeys ((store ++ (ids.filter
      (fun i => (lookupBuf store i).isNone)).map (fun i => (i, ([] : Buffer)))).filter
        (fun p => decide (p.1 ∈ ids)))).Sublist
      (storeKeys (store ++ (ids.filter
        (fun i => (lookupBuf store i).isNone)).map (fun i => (i, ([] : Buffer))))) :=
    List.Sublist.map Prod.fst (List.filter_sublist _)
  refine hsub.nodup ?_
  rw [storeKeys, List.map_append]
  have hmm : (List.map (fun i => (i, ([] : Buffer)))
      (ids.filter (fun i => (lookupBuf store i).isNone))).map Prod.fst
      = ids.filter (fun i => (lookupBuf store i).isNone) := by
    rw [List.map_map]
    exact List.map_id _
  rw [hmm]
  refine List.Nodup.append hst (hids.filter _) ?_
  intro a ha hb
  have ha' : (lookupBuf store a).isSome := (mem_storeKeys_iff store a).mp ha
  have h2 := (List.mem_filter.mp hb).2
  rw [Option.isNone_iff_eq_none] at h2
  rw [h2] at ha'
  simp at ha'
example : ensureStoreKeys ["S1"] [] = [("S1", [])] := by decide
example : hasAnyData [("S1", []), ("S2", [⟨3, 5, none⟩])] = true := by decide
example : (ingest ["S1"] [] "s1" 5 none 7).1 = .ok "S1" 7 := by decide
example : (ingest ["S1"] [] "s9" 5 none 7).1 = .unknownSensor "S9" ["S1"] := by
  decide

/-! ## Invariant preservation across operations -/

theorem dequeAppend_ne_nil (buf : Buffer) (s : Sample) : dequeAppend buf s ≠ [] := by
  unfold dequeAppend
  split <;> simp

theorem boundedStore_ensure {ids : List String} {store : Store}
    (h : boundedStore store) : boundedStore (ensureStoreKeys ids store) := by
  intro sid buf hl
  rw [lookupBuf_ensure] at hl
  by_cases hm : sid ∈ ids
  · rw [if_pos hm] at hl
    cases hs : lookupBuf store sid with
    | some b =>
        rw [hs] at hl
        simp at hl
        subst hl
        exact h sid b hs
    | none =>
        rw [hs] at hl
        simp at hl
        subst hl
        simp
  · rw [if_neg hm] at hl
    simp at hl

theorem boundedStore_applyOp {store : Store} (op : Op)
    (h : boundedStore store) : boundedStore (applyOp store op) := by
  cases op with
  | opReconcile ids => exact boundedStore_ensure h
  | opIngest ids sid p adc now =>
      simp only [applyOp, ingest]
      cases hl : lookupBuf (ensureStoreKeys ids store) (normalizeId sid) with
      | none => exact boundedStore_ensure h
      | some b =>
          intro k buf hk
          rw [lookupBuf_setBuf] at hk
          by_cases hks : k = normalizeId sid
          · rw [if_pos hks, hks, hl] at hk
            simp at hk
            subst hk
            exact length_dequeAppend_le _ (boundedStore_ensure h _ b hl)
          · rw [if_neg hks] at hk
            exact boundedStore_ensure h k buf hk

theorem boundedStore_applyOps {store : Store} (ops : List Op)
    (h : boundedStore store) : boundedStore (applyOps store ops) := by
  induction ops generalizing store with
  | nil => exact h
  | cons op rest ih => exact ih (boundedStore_applyOp op h)

theorem boundedStore_nil : boundedStore [] := by
  intro sid buf h
  simp [lookupBuf] at h

/-- Data survives a reconciliation whose id set keeps every data-holding key. -/
theorem hasAnyData_ensure_keep {ids : List String} {store : Store}
    (hnd : (storeKeys store).Nodup)
    (hkeep : ∀ p ∈ store, p.2 ≠ [] → p.1 ∈ ids)
    (hd : hasAnyData store = true) :
    hasAnyData (ensureStoreKeys ids store) = true := by
  obtain ⟨p, hpmem, hpne⟩ := hasAnyData_elim hd
  obtain ⟨k, v⟩ := p
  have hlk : lookupBuf store k = some v := lookup_of_mem_nodup hnd hpmem
  have hk : k ∈ ids := hkeep (k, v) hpmem hpne
  have : lookupBuf (ensureStoreKeys ids store) k = some v := by
    rw [lookupBuf_ensure, if_pos hk, hlk]
    rfl
  exact hasAnyData_of_lookup this hpne

theorem stepKeepsData_elim {store : Store} {op : Op}
    (h : stepKeepsData store op = true) :
    (opIds op).Nodup ∧ ∀ p ∈ store, p.2 ≠ [] → p.1 ∈ opIds op := by
  unfold stepKeepsData at h
  rw [Bool.and_eq_true] at h
  constructor
  · exact of_decide_eq_true h.1
  · intro p hp hne
    have := List.all_eq_true.mp h.2 p hp
    rw [Bool.or_eq_true] at this
    rcases this with h1 | h1
    · exact absurd (List.isEmpty_iff.mp h1) hne
    · exact of_decide_eq_true h1

theorem hasAnyData_applyOp {store : Store} {op : Op}
    (hnd : (storeKeys store).Nodup) (hd : hasAnyData store = true)
    (hs : stepKeepsData store op = true) :
    hasAnyData (applyOp store op) = true ∧
      (storeKeys (applyOp store op)).Nodup := by
  obtain ⟨hids, hkeep⟩ := stepKeepsData_elim hs
  cases op with
  | opReconcile ids =>
      exact ⟨hasAnyData_ensure_keep hnd hkeep hd, storeKeys_ensure_nodup hids hnd⟩
  | opIngest ids sid p adc now =>
      simp only [applyOp, ingest]
      have hnd' := @storeKeys_ensure_nodup ids store hids hnd
      cases hl : lookupBuf (ensureStoreKeys ids store) (normalizeId sid) with
      | none => exact ⟨hasAnyData_ensure_keep hnd hkeep hd, hnd'⟩
      | some b =>
          constructor
          · refine @hasAnyData_of_lookup _ (normalizeId sid)
              (dequeAppend b ⟨now, p, adc⟩) ?_ (dequeAppend_ne_nil _ _)
            rw [lookupBuf_setBuf, if_pos rfl, hl]
            rfl
          · rw [storeKeys_setBuf]
            exact hnd'

theorem hasAnyData_applyOps {store : Store} {ops : List Op}
    (hnd : (storeKeys store).Nodup) (hd : hasAnyData store = true)
    (hk : keepsData store ops = true) :
    hasAnyData (applyOps store ops) = true := by
  induction ops generalizing store with
  | nil => exact hd
  | cons op rest ih =>
      unfold keepsData at hk
      rw [Bool.and_eq_true] at hk
      obtain ⟨hd', hnd'⟩ := hasAnyData_applyOp hnd hd hk.1
      exact ih hnd' hd' hk.2

/-! ## Reconciliation idempotence -/

theorem ensureStoreKeys_idem (ids : List String) (store : Store) :
    ensureStoreKeys ids (ensureStoreKeys ids store) = ensureStoreKeys ids store := by
  have hfilter : ids.filter
      (fun i => (lookupBuf (ensureStoreKeys ids store) i).isNone) = [] := by
    rw [List.filter_eq_nil_iff]
    intro i hi
    rw [lookupBuf_ensure, if_pos hi]
    simp
  have hkeep : (ensureStoreKeys ids store).filter
      (fun p => decide (p.1 ∈ ids)) = ensureStoreKeys ids store := by
    rw [List.filter_eq_self]
    intro p hp
    unfold ensureStoreKeys at hp
    exact (List.mem_filter.mp hp).2
  conv_lhs => rw [ensureStoreKeys, hfilter]
  rw [List.map_nil, List.append_nil, hkeep]

/-! ## Claim theorems -/

/-- C8: store reconciliation is idempotent — a second run against the same
configured id set returns the store unchanged — and one run gives every
configured id its old buffer (or a fresh empty one) and drops every
unconfigured id, never altering the contents of a buffer that stays. -/
theorem claim_C8_reconcile_idempotent (ids : List String) (store : Store) :
    ensureStoreKeys ids (ensureStoreKeys ids store) = ensureStoreKeys ids store ∧
    ∀ sid, lookupBuf (ensureStoreKeys ids store) sid =
      if sid ∈ ids then some ((lookupBuf store sid).getD []) else none :=
  ⟨ensureStoreKeys_idem ids store, fun sid => lookupBuf_ensure ids store sid⟩

/-- C4: every buffer of a store reachable from the empty initial store by
ingests and reconciliations holds at most `MAX_POINTS_PER_SENSOR = 8000`
samples, and appending to a buffer of exactly 8000 samples evicts exactly
the oldest sample, keeping the others in order and the length at 8000. -/
theorem claim_C4_capacity :
    (∀ (ops : List Op) (sid : String) (buf : Buffer),
        lookupBuf (applyOps [] ops) sid = some buf →
        buf.length ≤ MAX_POINTS_PER_SENSOR) ∧
    (∀ (smp oldest : Sample) (rest : Buffer),
        (oldest :: rest).length = MAX_POINTS_PER_SENSOR →
        dequeAppend (oldest :: rest) smp = rest ++ [smp] ∧
        (dequeAppend (oldest :: rest) smp).length = MAX_POINTS_PER_SENSOR) := by
  constructor
  · intro ops sid buf h
    exact boundedStore_applyOps ops boundedStore_nil sid buf h
  · intro smp oldest rest hlen
    have hnot : ¬ (oldest :: rest).length < MAX_POINTS_PER_SENSOR := by
      omega
    constructor
    · unfold dequeAppend
      rw [if_neg hnot]
      rfl
    · unfold dequeAppend
      rw [if_neg hnot]
      simp only [List.tail_cons, List.length_append, List.length_cons,
        List.length_nil] at hlen ⊢
      omega

theorem claim_C4_capacity_witness :
    ([] : Buffer).length ≤ MAX_POINTS_PER_SENSOR ∧
    dequeAppend ((⟨0, 1, none⟩ : Sample) :: List.replicate 7999 (⟨0, 1, none⟩ : Sample))
        ⟨1, 2, none⟩
      = List.replicate 7999 (⟨0, 1, none⟩ : Sample) ++ [⟨1, 2, none⟩] := by
  constructor
  · exact claim_C4_capacity.1 [Op.opReconcile ["S1"]] "S1" [] (by decide)
  · exact (claim_C4_capacity.2 ⟨1, 2, none⟩ ⟨0, 1, none⟩
      (List.replicate 7999 ⟨0, 1, none⟩)
      (by rw [List.length_cons, List.length_replicate]; rfl)).1

/-- C5: ingesting a reading whose normalized id is not configured fails with
the unknown-sensor error carrying the normalized id and exactly the
configured id set, and stores no sample anywhere; ingesting to a configured
id succeeds, stamps the sample with server time, reports that timestamp,
and appends exactly to that sensor's buffer. -/
theorem claim_C5_ingest (ids : List String) (store : Store) (raw : String)
    (p : ℚ) (adc : Option Int) (now : Int) :
    (lookupBuf (ensureStoreKeys ids store) (normalizeId raw) = none →
       ingest ids store raw p adc now =
         (.unknownSensor (normalizeId raw) (sortedKeys (ensureStoreKeys ids store)),
          ensureStoreKeys ids store) ∧
       (∀ x, x ∈ sortedKeys (ensureStoreKeys ids store) ↔ x ∈ ids) ∧
       (∀ k buf, lookupBuf (ensureStoreKeys ids store) k = some buf →
          buf = (lookupBuf store k).getD [])) ∧
    (∀ buf, lookupBuf (ensureStoreKeys ids store) (normalizeId raw) = some buf →
       (ingest ids store raw p adc now).1 = .ok (normalizeId raw) now ∧
       lookupBuf (ingest ids store raw p adc now).2 (normalizeId raw) =
         some (dequeAppend buf ⟨now, p, adc⟩) ∧
       (∀ k, k ≠ normalizeId raw →
          lookupBuf (ingest ids store raw p adc now).2 k =
            lookupBuf (ensureStoreKeys ids store) k)) := by
  constructor
  · intro h
    refine ⟨?_, ?_, ?_⟩
    · simp only [ingest, h]
    · intro x
      rw [sortedKeys, mem_sortStrings, mem_storeKeys_iff]
      by_cases hx : x ∈ ids <;> simp [lookupBuf_ensure, hx]
    · intro k buf hk
      rw [lookupBuf_ensure] at hk
      by_cases hkids : k ∈ ids
      · rw [if_pos hkids] at hk
        exact (Option.some.injEq .. ▸ hk).symm
      · rw [if_neg hkids] at hk
        exact absurd hk (by simp)
  · intro buf h
    refine ⟨?_, ?_, ?_⟩
    · simp only [ingest, h]
    · simp only [ingest, h]
      rw [lookupBuf_setBuf, if_pos rfl, h]
      rfl
    · intro k hk
      simp only [ingest, h]
      rw [lookupBuf_setBuf, if_neg hk]

theorem claim_C5_ingest_witness :
    (ingest ["S1"] [] "s9" 5 none 7 =
       (.unknownSensor "S9" (sortedKeys (ensureStoreKeys ["S1"] [])),
        ensureStoreKeys ["S1"] []) ∧
     ("S1" ∈ sortedKeys (ensureStoreKeys ["S1"] []) ↔ "S1" ∈ ["S1"])) ∧
    ((ingest ["S1"] [] "s1" 5 none 7).1 = .ok "S1" 7 ∧
     lookupBuf (ingest ["S1"] [] "s1" 5 none 7).2 "S1" =
       some (dequeAppend [] ⟨7, 5, none⟩)) := by
  constructor
  · have h := (claim_C5_ingest ["S1"] [] "s9" 5 none 7).1 (by decide)
    exact ⟨h.1, h.2.1 "S1"⟩
  · have h := (claim_C5_ingest ["S1"] [] "s1" 5 none 7).2 [] (by decide)
    exact ⟨h.1, h.2.1⟩

/-- C7 fails as stated: a successful ingest makes `has_any_data()` true, but
a later reconciliation against a configured set that drops the only
data-holding sensor (here `{S2}` after data went to `S1`) deletes that
buffer and `has_any_data()` is false again — it is not permanent under
"reconciliations against any configured sensor set". -/
theorem claim_C7_counterexample :
    (ingest ["S1"] [("S1", [])] "S1" 50 none 0).1 = .ok "S1" 0 ∧
    hasAnyData (ingest ["S1"] [("S1", [])] "S1" 50 none 0).2 = true ∧
    hasAnyData (applyOps (ingest ["S1"] [("S1", [])] "S1" 50 none 0).2
      [Op.opReconcile ["S2"]]) = false := by
  refine ⟨by decide, by decide, by decide⟩

/-- C7 (amended): a successful ingest makes `has_any_data()` true, and it
then stays true under every subsequent operation sequence whose
reconciliations use duplicate-free configured id sets that retain every
sensor id holding data at that point. -/
theorem claim_C7_data_permanence :
    (∀ (ids : List String) (store : Store) (raw : String) (p : ℚ)
        (adc : Option Int) (now : Int) (sid : String) (ts : Int),
        (ingest ids store raw p adc now).1 = .ok sid ts →
        hasAnyData (ingest ids store raw p adc now).2 = true) ∧
    (∀ (store : Store) (ops : List Op),
        (storeKeys store).Nodup → hasAnyData store = true →
        keepsData store ops = true →
        hasAnyData (applyOps store ops) = true) := by
  constructor
  · intro ids store raw p adc now sid ts h
    revert h
    simp only [ingest]
    cases hl : lookupBuf (ensureStoreKeys ids store) (normalizeId raw) with
    | none => intro h; exact absurd h (by simp)
    | some b =>
        intro _
        refine @hasAnyData_of_lookup _ (normalizeId raw)
          (dequeAppend b ⟨now, p, adc⟩) ?_ (dequeAppend_ne_nil _ _)
        rw [lookupBuf_setBuf, if_pos rfl, hl]
        rfl
  · intro store ops h1 h2 h3
    exact hasAnyData_applyOps h1 h2 h3

theorem claim_C7_data_permanence_witness :
    hasAnyData (ingest ["S1"] [("S1", [])] "S1" 50 none 0).2 = true ∧
    hasAnyData (applyOps [("S1", [⟨0, 50, none⟩])]
      [Op.opReconcile ["S1", "S2"], Op.opIngest ["S1", "S2"] "S2" 1 none 5]) = true := by
  constructor
  · exact claim_C7_data_permanence.1 ["S1"] [("S1", [])] "S1" 50 none 0 "S1" 0
      (by decide)
  · exact claim_C7_data_permanence.2 [("S1", [⟨0, 50, none⟩])]
      [Op.opReconcile ["S1", "S2"], Op.opIngest ["S1", "S2"] "S2" 1 none 5]
      (by decide) (by decide) (by decide)

/-- C3: in the real-data latest read, a sensor with at least one sample is
online iff `now - last.ts ≤ OFFLINE_AFTER_S` (age 180 online, 181 offline);
online reports the last percent rounded to one decimal, offline reports a
null percent while `last_seen` and age are still reported; a sensor with no
samples is offline with null percent, null `last_seen`, null age. -/
theorem claim_C3_freshness (now : Int) (cfg : SensorCfg) (buf : Buffer) :
    (∀ last, buf.getLast? = some last →
       ((latestRealEntry now cfg buf).status = "online" ↔
          now - last.ts ≤ OFFLINE_AFTER_S) ∧
       (now - last.ts ≤ OFFLINE_AFTER_S →
          (latestRealEntry now cfg buf).percent = some (round1 last.percent)) ∧
       (OFFLINE_AFTER_S < now - last.ts →
          (latestRealEntry now cfg buf).percent = none ∧
          (latestRealEntry now cfg buf).status = "offline") ∧
       (latestRealEntry now cfg buf).last_seen = some last.ts ∧
       (latestRealEntry now cfg buf).age_s = some (now - last.ts)) ∧
    (latestRealEntry now cfg [] =
      { sensor_id := cfg.id, label := cfg.label, percent := none
        last_seen := none, status := "offline", age_s := none }) ∧
    (∀ (sensors : List SensorCfg) (store : Store),
       latestReal sensors store now = sensors.map (fun s =>
         latestRealEntry now s ((lookupBuf store s.id).getD []))) := by
  refine ⟨?_, rfl, fun _ _ => rfl⟩
  intro last hlast
  have hs : latestRealEntry now cfg buf =
      { sensor_id := cfg.id, label := cfg.label
        percent := if now - last.ts ≤ OFFLINE_AFTER_S
          then some (round1 last.percent) else none
        last_seen := some last.ts
        status := if now - last.ts ≤ OFFLINE_AFTER_S then "online" else "offline"
        age_s := some (now - last.ts) } := by
    simp only [latestRealEntry, hlast]
  rw [hs]
  by_cases hage : now - last.ts ≤ OFFLINE_AFTER_S
  · rw [if_pos hage, if_pos hage]
    exact ⟨⟨fun _ => hage, fun _ => rfl⟩, fun _ => rfl,
      fun hlt => absurd hage (not_le.mpr hlt), rfl, rfl⟩
  · rw [if_neg hage, if_neg hage]
    exact ⟨⟨fun h => absurd (show ("offline" : String) = "online" from h)
        (by decide), fun h => absurd h hage⟩,
      fun h => absurd h hage, fun _ => ⟨rfl, rfl⟩, rfl, rfl⟩

theorem claim_C3_freshness_witness :
    ((latestRealEntry 180 ⟨"S1", "P1"⟩ [⟨0, 10, none⟩]).status = "online" ↔
       (180 : Int) - 0 ≤ OFFLINE_AFTER_S) ∧
    (latestRealEntry 180 ⟨"S1", "P1"⟩ [⟨0, 10, none⟩]).percent = some (round1 10) ∧
    ((latestRealEntry 181 ⟨"S1", "P1"⟩ [⟨0, 10, none⟩]).percent = none ∧
     (latestRealEntry 181 ⟨"S1", "P1"⟩ [⟨0, 10, none⟩]).status = "offline") := by
  have h180 := (claim_C3_freshness 180 ⟨"S1", "P1"⟩ [⟨0, 10, none⟩]).1
    ⟨0, 10, none⟩ rfl
  have h181 := (claim_C3_freshness 181 ⟨"S1", "P1"⟩ [⟨0, 10, none⟩]).1
    ⟨0, 10, none⟩ rfl
  exact ⟨h180.1, h180.2.1 (by decide), h181.2.2.1 (by decide)⟩

/-- C2: the real-vs-simulated decision is a single store-wide gate computed
fresh from the reconciled store on each read: with any non-empty buffer the
latest and windowed history reads use only real samples (a sensor with no
samples of its own gets a null percent / null bucket values, never
simulated data), and with all buffers empty both reads use the simulated
generator for every sensor. -/
theorem claim_C2_fallback_gate (sensors : List SensorCfg) (store : Store)
    (now minutes : Int) (sv nz : ℕ → ℚ) (svh : Int → ℕ → ℚ)
    (nzh : ℕ → ℕ → ℚ) :
    ((latest sensors store now sv nz).1 =
       if hasAnyData (ensureStoreKeys (sensors.map SensorCfg.id) store)
       then latestReal sensors (ensureStoreKeys (sensors.map SensorCfg.id) store) now
       else latestSim sensors now sv nz) ∧
    ((historyEndpoint sensors store minutes now svh nzh).1 =
       if hasAnyData (ensureStoreKeys (sensors.map SensorCfg.id) store)
       then (minuteBucketHistory sensors
              (ensureStoreKeys (sensors.map SensorCfg.id) store)
              (clamp minutes 10 1440) now).1
       else historySim sensors (clamp minutes 10 1440) now svh nzh) ∧
    (∀ (cfg : SensorCfg) (t : Int),
       (latestRealEntry t cfg []).percent = none ∧
       (latestRealEntry t cfg []).status = "offline") ∧
    (∀ t : Int, bucketValue [] t = none) := by
  refine ⟨?_, ?_, fun _ _ => ⟨rfl, rfl⟩, fun _ => rfl⟩
  · simp only [latest]
    split <;> rfl
  · simp only [historyEndpoint]
    split <;> rfl

/-- C10: on the simulated latest path (no real data recorded), every
configured sensor is reported online with a non-null percent, `last_seen`
equal to the current server time, and age 0 — the staleness classification
is never applied in simulation mode. -/
theorem claim_C10_simulated_latest (sensors : List SensorCfg) (store : Store)
    (now : Int) (sv nz : ℕ → ℚ) :
    (hasAnyData (ensureStoreKeys (sensors.map SensorCfg.id) store) = false →
       (latest sensors store now sv nz).1 = latestSim sensors now sv nz) ∧
    (∀ e ∈ latestSim sensors now sv nz,
       e.status = "online" ∧ (∃ v, e.percent = some v) ∧
       e.last_seen = some now ∧ e.age_s = some 0) := by
  constructor
  · intro h
    simp [latest, h]
  · intro e he
    obtain ⟨p, _, rfl⟩ := List.mem_map.mp he
    exact ⟨rfl, ⟨_, rfl⟩, rfl, rfl⟩

theorem claim_C10_simulated_latest_witness :
    (latest [⟨"S1", "P1"⟩] [] 0 (fun _ => 0) (fun _ => 0)).1 =
      latestSim [⟨"S1", "P1"⟩] 0 (fun _ => 0) (fun _ => 0) ∧
    ({ sensor_id := "S1", label := "P1"
       percent := some (simLatestValue 0 0)
       last_seen := some (0 : Int), status := "online"
       age_s := some 0 } : LatestEntry).status = "online" := by
  constructor
  · exact (claim_C10_simulated_latest [⟨"S1", "P1"⟩] [] 0 (fun _ => 0)
      (fun _ => 0)).1 (by decide)
  · exact ((claim_C10_simulated_latest [⟨"S1", "P1"⟩] [] 0 (fun _ => 0)
      (fun _ => 0)).2 _ (List.mem_singleton_self _)).1

/-- C9: every value produced by the simulated generator — on the simulated
latest path, the simulated windowed history path, and the date-range
history path — lies in `[0, 100]` and is an integer number of tenths, for
every timestamp, sensor index, sine value and jitter draw. -/
theorem claim_C9_sim_values_bounded (sensors : List SensorCfg)
    (now minutes startTs endTs : Int) (sv nz : ℕ → ℚ)
    (svh : Int → ℕ → ℚ) (nzh : ℕ → ℕ → ℚ) :
    (∀ e ∈ latestSim sensors now sv nz,
       ∃ v, e.percent = some v ∧ 0 ≤ v ∧ v ≤ 100 ∧ isTenth v) ∧
    (∀ row ∈ historySim sensors minutes now svh nzh, ∀ pr ∈ row.values,
       ∃ v, pr.2 = some v ∧ 0 ≤ v ∧ v ≤ 100 ∧ isTenth v) ∧
    (∀ row ∈ dateRangeRows sensors startTs endTs svh nzh, ∀ pr ∈ row.values,
       ∃ v, pr.2 = some v ∧ 0 ≤ v ∧ v ≤ 100 ∧ isTenth v) := by
  refine ⟨?_, ?_, ?_⟩
  · intro e he
    obtain ⟨p, _, rfl⟩ := List.mem_map.mp he
    obtain ⟨h0, h100, ht⟩ := simClampRound_ok (55 + 18 * sv p.1 + nz p.1)
    exact ⟨_, rfl, h0, h100, ht⟩
  · intro row hrow pr hpr
    obtain ⟨j, _, rfl⟩ := List.mem_map.mp hrow
    obtain ⟨p, _, rfl⟩ := List.mem_map.mp hpr
    obtain ⟨h0, h100, ht⟩ := simClampRound_ok
      (55 + 18 * svh (now - (minutes - (j : Int)) * 60) p.1 +
        (-0.02 : ℚ) * ((minutes - (j : Int) : Int) : ℚ) + nzh j p.1)
    exact ⟨_, rfl, h0, h100, ht⟩
  · intro row hrow pr hpr
    obtain ⟨j, _, rfl⟩ := List.mem_map.mp hrow
    obtain ⟨p, _, rfl⟩ := List.mem_map.mp hpr
    obtain ⟨h0, h100, ht⟩ := simClampRound_ok
      (55 + 18 * svh (startTs + 60 * (j : Int)) p.1 +
        (-0.00002 : ℚ) * (((startTs + 60 * (j : Int)) - startTs : Int) : ℚ) +
        nzh j p.1)
    exact ⟨_, rfl, h0, h100, ht⟩

theorem claim_C9_sim_values_bounded_witness :
    (∃ v, ({ sensor_id := "S1", label := "P1"
             percent := some (simLatestValue 0 0)
             last_seen := some (0 : Int), status := "online"
             age_s := some 0 } : LatestEntry).percent = some v ∧
          0 ≤ v ∧ v ≤ 100 ∧ isTenth v) ∧
    (∃ v, (("S1", some (histSimValue 0 0 0)) : String × Option ℚ).2 = some v ∧
          0 ≤ v ∧ v ≤ 100 ∧ isTenth v) := by
  constructor
  · exact (claim_C9_sim_values_bounded [⟨"S1", "P1"⟩] 0 0 0 0 (fun _ => 0)
      (fun _ => 0) (fun _ _ => 0) (fun _ _ => 0)).1 _ (List.mem_singleton_self _)
  · exact (claim_C9_sim_values_bounded [⟨"S1", "P1"⟩] 60 0 0 0 (fun _ => 0)
      (fun _ => 0) (fun _ _ => 0) (fun _ _ => 0)).2.1 _
      (List.mem_singleton_self _) _ (List.mem_singleton_self _)

theorem round1_ten : round1 10 = 10 := by
  have h := round1_intCast 10
  norm_num at h
  exact h

theorem round1_twenty : round1 20 = 20 := by
  have h := round1_intCast 20
  norm_num at h
  exact h

/-- C1: the windowed reconstructor clamps the requested minutes to
`[10, 1440]`, emits exactly one row per 60-second boundary over
`[now - minutes*60, now]` inclusive, each row valuing each configured
sensor at the most recent stored sample with timestamp at or before the
boundary (newest-to-oldest first match), rounded to one decimal, or null
when no such sample exists; in particular with samples at t=0 (value 10)
and t=90 (value 20), the buckets at t=0, 60, 120 of a window ending at
now=120 report 10, 10, 20. -/
theorem claim_C1_bucketed_history (sensors : List SensorCfg) (store : Store)
    (minutes now : Int) :
    (10 ≤ clamp minutes 10 1440 ∧ clamp minutes 10 1440 ≤ 1440) ∧
    ((minuteBucketHistory sensors store minutes now).1.length =
       (clamp minutes 10 1440).toNat + 1) ∧
    (∀ (i : ℕ) (h : i < (minuteBucketHistory sensors store minutes now).1.length),
       ((minuteBucketHistory sensors store minutes now).1.get ⟨i, h⟩).ts =
         now - clamp minutes 10 1440 * 60 + 60 * (i : Int) ∧
       ((minuteBucketHistory sensors store minutes now).1.get ⟨i, h⟩).values =
         sensors.map (fun s => (s.id, locfValue
           ((lookupBuf (ensureStoreKeys (sensors.map SensorCfg.id) store) s.id).getD [])
           (now - clamp minutes 10 1440 * 60 + 60 * (i : Int))))) ∧
    ((minuteBucketHistory [⟨"S1", "P1"⟩]
        [("S1", [⟨0, 10, none⟩, ⟨90, 20, none⟩])] 2 120).1[8]?.map
          (fun r => (r.ts, r.values)) = some (0, [("S1", some 10)]) ∧
     (minuteBucketHistory [⟨"S1", "P1"⟩]
        [("S1", [⟨0, 10, none⟩, ⟨90, 20, none⟩])] 2 120).1[9]?.map
          (fun r => (r.ts, r.values)) = some (60, [("S1", some 10)]) ∧
     (minuteBucketHistory [⟨"S1", "P1"⟩]
        [("S1", [⟨0, 10, none⟩, ⟨90, 20, none⟩])] 2 120).1[10]?.map
          (fun r => (r.ts, r.values)) = some (120, [("S1", some 20)])) := by
  have hrows : (minuteBucketHistory sensors store minutes now).1
      = (List.range ((clamp minutes 10 1440).toNat + 1)).map (fun i : ℕ =>
          { ts := now - clamp minutes 10 1440 * 60 + 60 * (i : Int)
            values := sensors.map (fun s => (s.id, bucketValue
              ((lookupBuf (ensureStoreKeys (sensors.map SensorCfg.id) store)
                s.id).getD [])
              (now - clamp minutes 10 1440 * 60 + 60 * (i : Int)))) }) := rfl
  refine ⟨⟨le_max_left _ _, max_le (by norm_num) (min_le_left _ _)⟩, ?_, ?_, ?_⟩
  · rw [hrows, List.length_map, List.length_range]
  · intro i h
    rw [List.get_eq_getElem]
    constructor
    · simp only [hrows, List.getElem_map, List.getElem_range]
    · simp only [hrows, List.getElem_map, List.getElem_range,
        bucketValue_eq_locfValue]
  · have hb0 : bucketValue [⟨0, 10, none⟩, ⟨90, 20, none⟩] 0 = some 10 := by
      simp [bucketValue, List.find?_cons, round1_ten]
    have hb60 : bucketValue [⟨0, 10, none⟩, ⟨90, 20, none⟩] 60 = some 10 := by
      simp [bucketValue, List.find?_cons, round1_ten]
    have hb120 : bucketValue [⟨0, 10, none⟩, ⟨90, 20, none⟩] 120 = some 20 := by
      simp [bucketValue, List.find?_cons, round1_twenty]
    have hEx : (minuteBucketHistory [⟨"S1", "P1"⟩]
        [("S1", [⟨0, 10, none⟩, ⟨90, 20, none⟩])] 2 120).1
        = (List.range 11).map (fun i : ℕ =>
            { ts := (-480 : Int) + 60 * (i : Int)
              values := [("S1", bucketValue [⟨0, 10, none⟩, ⟨90, 20, none⟩]
                ((-480 : Int) + 60 * (i : Int)))] }) := rfl
    refine ⟨?_, ?_, ?_⟩
    · rw [hEx, List.getElem?_map, List.getElem?_range (by norm_num : (8:ℕ) < 11)]
      norm_num [hb0]
    · rw [hEx, List.getElem?_map, List.getElem?_range (by norm_num : (9:ℕ) < 11)]
      norm_num [hb60]
    · rw [hEx, List.getElem?_map, List.getElem?_range (by norm_num : (10:ℕ) < 11)]
      norm_num [hb120]

theorem claim_C1_bucketed_history_witness :
    ((minuteBucketHistory [⟨"S1", "P1"⟩] [] 0 600).1.get
        ⟨0, by decide⟩).ts =
      600 - clamp 0 10 1440 * 60 + 60 * ((0 : ℕ) : Int) :=
  ((claim_C1_bucketed_history [⟨"S1", "P1"⟩] [] 0 600).2.2.1 0
    (by decide)).1

/-- C6: the date-range history mode fails with the invalid-date-format
error when either date fails to parse; with both parsed, writing `S`/`E`
for the epoch day numbers of the start/end dates, it fails with the
invalid-range error exactly when the end day precedes the start day, fails
with the range-too-large error exactly when the inclusive span reaches 32
days (`E ≥ S + 31`), and succeeds for every span of at most 31 days
(`S ≤ E ≤ S + 30`), in particular for exactly 31 days. -/
theorem claim_C6_date_range_validation (sensors : List SensorCfg)
    (startS endS : String) (sinV : Int → ℕ → ℚ) (noiseV : ℕ → ℕ → ℚ) :
    ((parseIsoDate startS = none ∨ parseIsoDate endS = none) →
       historyDateRange sensors startS endS sinV noiseV = .invalidDateFormat) ∧
    (∀ sd ed, parseIsoDate startS = some sd → parseIsoDate endS = some ed →
       (daysFromCivil ed < daysFromCivil sd →
          historyDateRange sensors startS endS sinV noiseV = .invalidRange) ∧
       (daysFromCivil sd + 31 ≤ daysFromCivil ed →
          historyDateRange sensors startS endS sinV noiseV = .rangeTooLarge) ∧
       (daysFromCivil sd ≤ daysFromCivil ed →
          daysFromCivil ed ≤ daysFromCivil sd + 30 →
          ∃ rows, historyDateRange sensors startS endS sinV noiseV = .ok rows)) := by
  constructor
  · intro h
    rcases h with h | h
    · cases he : parseIsoDate endS <;> simp [historyDateRange, h, he]
    · cases hs : parseIsoDate startS <;> simp [historyDateRange, hs, h]
  · intro sd ed hs he
    simp only [historyDateRange, hs, he, dateTimestamp]
    refine ⟨?_, ?_, ?_⟩
    · intro hlt
      rw [if_pos (by omega)]
    · intro h32
      rw [if_neg (by omega), if_pos (by omega)]
    · intro hge hle
      rw [if_neg (by omega), if_neg (by omega)]
      exact ⟨_, rfl⟩

theorem claim_C6_date_range_validation_witness :
    historyDateRange [] "2024-99-01" "2024-01-05" (fun _ _ => 0) (fun _ _ => 0)
      = .invalidDateFormat ∧
    historyDateRange [] "2024-03-01" "2024-02-28" (fun _ _ => 0) (fun _ _ => 0)
      = .invalidRange ∧
    historyDateRange [] "2024-01-01" "2024-02-01" (fun _ _ => 0) (fun _ _ => 0)
      = .rangeTooLarge ∧
    (∃ rows, historyDateRange [] "2024-01-01" "2024-01-31" (fun _ _ => 0)
      (fun _ _ => 0) = .ok rows) := by
  refine ⟨?_, ?_, ?_, ?_⟩
  · exact (claim_C6_date_range_validation [] "2024-99-01" "2024-01-05"
      (fun _ _ => 0) (fun _ _ => 0)).1 (Or.inl (by decide))
  · exact ((claim_C6_date_range_validation [] "2024-03-01" "2024-02-28"
      (fun _ _ => 0) (fun _ _ => 0)).2 ⟨2024, 3, 1⟩ ⟨2024, 2, 28⟩
      (by decide) (by decide)).1 (by decide)
  · exact ((claim_C6_date_range_validation [] "2024-01-01" "2024-02-01"
      (fun _ _ => 0) (fun _ _ => 0)).2 ⟨2024, 1, 1⟩ ⟨2024, 2, 1⟩
      (by decide) (by decide)).2.1 (by decide)
  · exact ((claim_C6_date_range_validation [] "2024-01-01" "2024-01-31"
      (fun _ _ => 0) (fun _ _ => 0)).2 ⟨2024, 1, 1⟩ ⟨2024, 1, 31⟩
      (by decide) (by decide)).2.2 (by decide) (by decide)
